import Mathlib

set_option linter.unusedVariables false

/-!
Shallow embedding of the immudb-rs SQL client and of the document-query
conversion layer, together with proofs about the properties claimed of them.
Sources embedded: src/immudb-rs/src/sql.rs, src/immudb-rs/src/error.rs,
src/immudb-rs/src/interceptor.rs, src/src/document/conv.rs.
-/

/-- Error type of the crate (src/immudb-rs/src/error.rs). Payloads of the
wrapped foreign errors (uri, status, transport, serde) are modelled by their
display strings. -/
inductive Error where
  | InvalidUri (msg : String)
  | Unexpected (msg : String)
  | Protocol (status : String)
  | Transport (msg : String)
  | InvalidInput (msg : String)
  | Decode (msg : String)
  | JsonDecode (msg : String)
deriving DecidableEq, Repr

/-- IEEE-754 double values are modelled by their 64-bit pattern; the embedded
code only moves such values around, it never computes with them. -/
structure F64 where
  bits : Nat
deriving DecidableEq, Repr

/-- Protobuf oneof sql_value::Value (generated from the immudb schema):
variants Null(i32), N(i64), F(f64), B(bool), S(String), Bs(bytes), Ts(i64). -/
inductive SqlVal where
  | null (n : Int)
  | n (v : Int)
  | f (v : F64)
  | b (v : Bool)
  | s (v : String)
  | bs (v : List Nat)
  | ts (v : Int)
deriving DecidableEq, Repr

/-- Protobuf message SqlValue: an optional oneof value. -/
structure SqlValue where
  value : Option SqlVal
deriving DecidableEq, Repr

/-- Request params variants (enum SqlArg in sql.rs); the borrowed and owned
string and byte forms collapse to one constructor each, as Cow does not
change the carried value. -/
inductive SqlArg where
  | null
  | i64 (n : Int)
  | f64 (v : F64)
  | bool (b : Bool)
  | str (s : String)
  | bytes (b : List Nat)
  | ts (t : Int)
deriving DecidableEq, Repr

/-- Function arg_to_sql_value in sql.rs. -/
def arg_to_sql_value (a : SqlArg) : SqlValue :=
  let v : SqlVal :=
    match a with
    | .null => .null 0
    | .i64 n => .n n
    | .f64 f => .f f
    | .bool b => .b b
    | .str s => .s s
    | .bytes b => .bs b
    | .ts t => .ts t
  SqlValue.mk (some v)

/-- Rust cast `n as i64` applied to a u64 value (modelled as a Nat reduced
mod 2^64): two-complement reinterpretation of the low 64 bits. -/
def u64_as_i64 (x : Nat) : Int :=
  if x % 2 ^ 64 < 2 ^ 63 then ((x % 2 ^ 64 : Nat) : Int)
  else ((x % 2 ^ 64 : Nat) : Int) - 2 ^ 64

/-- From<i64> for SqlArg. -/
def sqlArgOfI64 (n : Int) : SqlArg := .i64 n

/-- From<bool> for SqlArg. -/
def sqlArgOfBool (b : Bool) : SqlArg := .bool b

/-- From<f64> for SqlArg. -/
def sqlArgOfF64 (v : F64) : SqlArg := .f64 v

/-- From<String> for SqlArg. -/
def sqlArgOfString (s : String) : SqlArg := .str s

/-- From<Vec<u8>> for SqlArg. -/
def sqlArgOfBytes (b : List Nat) : SqlArg := .bytes b

/-- Uuid values (uuid crate) are 16 raw bytes; the as_bytes view used by the
code is the bytes field itself. -/
structure Uuid where
  bytes : List Nat
deriving DecidableEq, Repr

/-- From<Uuid> for SqlArg: Bytes(u.as_bytes().to_vec()). -/
def sqlArgOfUuid (u : Uuid) : SqlArg := .bytes u.bytes

/-- Truncation of a nanosecond instant to whole microseconds, re-expressed in
nanoseconds; Rust integer division rounds toward zero, hence Int.tdiv. -/
def truncToMicros (ns : Int) : Int := (Int.tdiv ns 1000) * 1000

/-- Rust cast `x as i64` applied to an i128 value: wrap into the i64 range. -/
def i128_as_i64 (x : Int) : Int := (x + 2 ^ 63) % 2 ^ 64 - 2 ^ 63

/-- From<OffsetDateTime> for SqlArg. An OffsetDateTime is modelled by the
instant it denotes, as a nanosecond count from the unix epoch (conversion
to_offset(UTC) in the source does not move the instant); the source divides
unix_timestamp_nanos by 1000 (i128 division, toward zero) and casts to i64. -/
def sqlArgOfDateTime (ns : Int) : SqlArg := .ts (i128_as_i64 (Int.tdiv ns 1000))

/-- Debug rendering of a byte vector, as in Rust. -/
def debugBytes (l : List Nat) : String :=
  "[" ++ String.intercalate ", " (l.map toString) ++ "]"

/-- Debug rendering of a Rust string: quoted; escaping of special characters
inside is simplified to the quote and backslash cases, which suffices for
every string the claims touch. -/
def debugStr (s : String) : String :=
  let esc : Char → String := fun c =>
    if c = Char.ofNat 34 then String.mk [Char.ofNat 92, Char.ofNat 34]
    else if c = Char.ofNat 92 then String.mk [Char.ofNat 92, Char.ofNat 92]
    else String.mk [c]
  String.mk [Char.ofNat 34] ++ String.join (s.toList.map esc)
    ++ String.mk [Char.ofNat 34]

/-- Debug rendering of an f64 value, abstracted to its bit pattern; no claim
depends on this rendering. -/
def debugF64 (v : F64) : String := toString v.bits

/-- Debug rendering of the sql_value::Value oneof, following derive(Debug). -/
def debugSqlVal : SqlVal → String
  | .null n => "Null(" ++ toString n ++ ")"
  | .n v => "N(" ++ toString v ++ ")"
  | .f v => "F(" ++ debugF64 v ++ ")"
  | .b v => "B(" ++ (if v then "true" else "false") ++ ")"
  | .s v => "S(" ++ debugStr v ++ ")"
  | .bs v => "Bs(" ++ debugBytes v ++ ")"
  | .ts v => "Ts(" ++ toString v ++ ")"

/-- Debug rendering of Option<sql_value::Value>. -/
def debugOptSqlVal : Option SqlVal → String
  | some v => "Some(" ++ debugSqlVal v ++ ")"
  | none => "None"

/-- Message built by the impl_tryfrom_sqlvalue macro for a mismatched variant:
format "expected E, got A" with A the Debug form of the optional value. -/
def expectedGot (expected : String) (got : Option SqlVal) : String :=
  "expected " ++ expected ++ ", got " ++ debugOptSqlVal got

/-- Alphabet of the standard base64 engine. -/
def b64Alphabet : List Char :=
  "ABCDEFGHIJKLMNOPQRSTUVWXYZabcdefghijklmnopqrstuvwxyz0123456789+/".toList

/-- Character of the standard base64 alphabet at a 6-bit index. -/
def b64Char (i : Nat) : Char := (b64Alphabet.getD i (Char.ofNat 65))

/-- BASE64_STANDARD.encode on a byte vector. -/
def base64Encode : List Nat → String
  | [] => ""
  | [b1] =>
    String.mk [b64Char (b1 / 4), b64Char (b1 % 4 * 16), Char.ofNat 61,
      Char.ofNat 61]
  | [b1, b2] =>
    String.mk [b64Char (b1 / 4), b64Char (b1 % 4 * 16 + b2 / 16),
      b64Char (b2 % 16 * 4), Char.ofNat 61]
  | b1 :: b2 :: b3 :: rest =>
    String.mk [b64Char (b1 / 4), b64Char (b1 % 4 * 16 + b2 / 16),
      b64Char (b2 % 16 * 4 + b3 / 64), b64Char (b3 % 64)]
      ++ base64Encode rest

/-- TryFrom<SqlValue> for i64 (impl_tryfrom_sqlvalue in sql.rs). -/
def tryFromI64 (v : SqlValue) : Except Error Int :=
  match v.value with
  | some (.n n) => .ok n
  | other => .error (.Decode (expectedGot "i64" other))

/-- TryFrom<SqlValue> for String: accepts S directly and Bs via base64. -/
def tryFromString (v : SqlValue) : Except Error String :=
  match v.value with
  | some (.s s) => .ok s
  | some (.bs b) => .ok (base64Encode b)
  | other => .error (.Decode (expectedGot "string or bytes(base64)" other))

/-- TryFrom<SqlValue> for bool. -/
def tryFromBool (v : SqlValue) : Except Error Bool :=
  match v.value with
  | some (.b b) => .ok b
  | other => .error (.Decode (expectedGot "bool" other))

/-- Conversion `n as f64` of the i64 payload, used by the f64 decoder N arm:
round-to-nearest-even IEEE-754 conversion, expressed on bit patterns. No
claim exercises this arm. -/
def natToF64Bits (sign : Nat) (m : Nat) : Nat :=
  let e := Nat.log2 m
  if e ≤ 52 then
    sign * 2 ^ 63 + (1023 + e) * 2 ^ 52 + (m * 2 ^ (52 - e) - 2 ^ 52)
  else
    let s := e - 52
    let q := m / 2 ^ s
    let r := m % 2 ^ s
    let q2 := if r * 2 > 2 ^ s ∨ (r * 2 = 2 ^ s ∧ q % 2 = 1) then q + 1 else q
    if q2 = 2 ^ 53 then
      sign * 2 ^ 63 + (1023 + e + 1) * 2 ^ 52
    else
      sign * 2 ^ 63 + (1023 + e) * 2 ^ 52 + (q2 - 2 ^ 52)

/-- Rust cast of an i64 to f64, on the bit-pattern model. -/
def i64_as_f64 (n : Int) : F64 :=
  if n = 0 then F64.mk 0
  else F64.mk (natToF64Bits (if n < 0 then 1 else 0) n.natAbs)

/-- TryFrom<SqlValue> for f64: F directly, N through an int-to-float cast. -/
def tryFromF64 (v : SqlValue) : Except Error F64 :=
  match v.value with
  | some (.f f) => .ok f
  | some (.n n) => .ok (i64_as_f64 n)
  | other => .error (.Decode (expectedGot "f64" other))

/-- TryFrom<SqlValue> for Vec<u8>. -/
def tryFromBytes (v : SqlValue) : Except Error (List Nat) :=
  match v.value with
  | some (.bs b) => .ok b
  | other => .error (.Decode (expectedGot "bytes" other))

/-- Uuid::from_slice of the uuid crate: succeeds exactly on 16 bytes; the
error display string is abbreviated, no claim reads it. -/
def uuidFromSlice (b : List Nat) : Except Error Uuid :=
  if b.length = 16 then .ok (Uuid.mk b)
  else .error (.Decode ("invalid length: expected 16 bytes, found "
    ++ toString b.length))

/-- Value of a hexadecimal digit character. -/
def hexDigit (c : Char) : Option Nat :=
  if 48 ≤ c.toNat ∧ c.toNat ≤ 57 then some (c.toNat - 48)
  else if 97 ≤ c.toNat ∧ c.toNat ≤ 102 then some (c.toNat - 87)
  else if 65 ≤ c.toNat ∧ c.toNat ≤ 70 then some (c.toNat - 55)
  else none

/-- Bytes of an even-length run of hexadecimal digits. -/
def hexBytes : List Char → Option (List Nat)
  | [] => some []
  | c1 :: c2 :: rest => do
    let h ← hexDigit c1
    let l ← hexDigit c2
    let tl ← hexBytes rest
    some ((h * 16 + l) :: tl)
  | _ => none

/-- Uuid::parse_str of the uuid crate, modelled for the hyphenated and the
simple formats (the braced and urn forms of the crate are omitted; no claim
exercises the string arm of the uuid decoder). -/
def uuidParseStr (s : String) : Except Error Uuid :=
  let cs := s.toList
  let parsed : Option (List Nat) :=
    if cs.length = 36 then
      if cs.getD 8 (Char.ofNat 0) = Char.ofNat 45 ∧
          cs.getD 13 (Char.ofNat 0) = Char.ofNat 45 ∧
          cs.getD 18 (Char.ofNat 0) = Char.ofNat 45 ∧
          cs.getD 23 (Char.ofNat 0) = Char.ofNat 45 then
        hexBytes (cs.filter (fun c => c ≠ Char.ofNat 45))
      else none
    else if cs.length = 32 then hexBytes cs
    else none
  match parsed with
  | some b => .ok (Uuid.mk b)
  | none => .error (.Decode "invalid uuid string")

/-- TryFrom<SqlValue> for Uuid: 16 raw bytes or a uuid string. -/
def tryFromUuid (v : SqlValue) : Except Error Uuid :=
  match v.value with
  | some (.bs b) => uuidFromSlice b
  | some (.s s) => uuidParseStr s
  | other => .error (.Decode (expectedGot "uuid (16 bytes or string)" other))

/-- OffsetDateTime::from_unix_timestamp_nanos of the time crate: accepts
exactly the instants inside the representable range of the crate; the range
bounds (in nanoseconds) are passed as parameters lo and hi, with lo below
zero and hi above zero for the actual crate. -/
def fromUnixTimestampNanos (lo hi ns : Int) : Except Error Int :=
  if lo ≤ ns ∧ ns ≤ hi then .ok ns
  else .error (.Decode "timestamp out of range")

/-- TryFrom<SqlValue> for OffsetDateTime: the Ts microsecond payload is
multiplied by 1000 (exact i128 arithmetic) and range checked. -/
def tryFromDateTime (lo hi : Int) (v : SqlValue) : Except Error Int :=
  match v.value with
  | some (.ts us) => fromUnixTimestampNanos lo hi (us * 1000)
  | other => .error (.Decode (expectedGot "timestamp (Ts)" other))

/-- Removal of a matching suffix, the mirror of List.dropWhile. -/
def dropWhileEnd (p : Char → Bool) (l : List Char) : List Char :=
  (l.reverse.dropWhile p).reverse

/-- The str::trim of Rust on a character list (whitespace at both ends;
the claims only exercise ASCII whitespace, which Char.isWhitespace covers). -/
def trimChars (l : List Char) : List Char :=
  dropWhileEnd Char.isWhitespace (l.dropWhile Char.isWhitespace)

/-- The str::trim_matches of Rust: repeated removal of matching characters
from both ends. -/
def trimMatchesChars (p : Char → Bool) (l : List Char) : List Char :=
  dropWhileEnd p (l.dropWhile p)

/-- Loop of QueryResult::normalize_col stripping balanced outer parentheses:
while the trimmed text starts with an opening and ends with a closing
parenthesis, drop both and trim again. The fuel argument bounds the
iteration count; each pass removes two characters, so starting fuel equal to
the length is sufficient and the loop is never cut short. -/
def stripParensLoop : Nat → List Char → List Char
  | 0, l => l
  | fuel + 1, l =>
    if 2 ≤ l.length ∧ l.head? = some '(' ∧ l.getLast? = some ')' then
      stripParensLoop fuel (trimChars l.tail.dropLast)
    else l

/-- Suffix after the last dot; rsplit yields the whole text when no dot
occurs, matching rsplit(..).next().unwrap_or(s). -/
def lastSegmentAfterDot (l : List Char) : List Char :=
  (l.reverse.takeWhile (fun c => c ≠ '.')).reverse

/-- QueryResult::normalize_col from sql.rs: trim, strip balanced outer
parentheses, trim quote-like characters at the edges, keep the last
dot-qualified segment, then trim stray parentheses and whitespace again. -/
def normalize_col (s : String) : String :=
  let l := trimChars s.toList
  let l := stripParensLoop l.length l
  let l := trimMatchesChars
    (fun c => c = Char.ofNat 34 ∨ c = Char.ofNat 96 ∨ c = '[' ∨ c = ']') l
  let seg := trimChars (lastSegmentAfterDot l)
  String.mk (trimChars (trimMatchesChars (fun c => c = ')' ∨ c = '(') seg))

/-- Column metadata of a query result (struct Column in sql.rs). -/
structure Column where
  name : String
  colType : String
deriving DecidableEq, Repr

/-- One result row (struct Row in sql.rs). -/
structure Row where
  columns : List String
  values : List SqlValue
deriving DecidableEq, Repr

/-- One chunk of the server-streamed SQL query response. -/
structure Chunk where
  columns : List Column
  rows : List Row
deriving DecidableEq, Repr

/-- Aggregated result of a SELECT (struct QueryResult in sql.rs). -/
structure QueryResult where
  columns : List Column
  rows : List Row
deriving DecidableEq, Repr

/-- Streaming loop of SqlClient::query: the stream is the list of outcomes
of successive stream.message() calls; a first error stops the loop and is
propagated by the question-mark operator, discarding everything accumulated;
otherwise column metadata is taken from the first chunk carrying any, and
rows of every chunk are appended in arrival order. -/
def queryLoop : List (Except Error Chunk) → List Column → List Row →
    Except Error QueryResult
  | [], cols, rows => .ok (QueryResult.mk cols rows)
  | .error e :: _, _, _ => .error e
  | .ok c :: rest, cols, rows =>
    let cols2 := if cols.isEmpty && !c.columns.isEmpty then c.columns else cols
    queryLoop rest cols2 (rows ++ c.rows)

/-- SqlClient::query aggregation, started from empty accumulators. -/
def queryAggregate (msgs : List (Except Error Chunk)) : Except Error QueryResult :=
  queryLoop msgs [] []

/-- Column metadata of the first chunk whose column list is not empty. -/
def firstNonemptyCols : List Chunk → List Column
  | [] => []
  | c :: rest => if c.columns.isEmpty then firstNonemptyCols rest else c.columns

/-- Transaction-related state of a SqlClient: the optionally stored
transaction id (a MetadataValue, modelled by its string). -/
structure SqlClientState where
  tx_id : Option String
deriving DecidableEq, Repr

/-- Metadata attached to an outgoing request by SqlClient::req_with_tx,
reduced to the single transactionid entry it may add. -/
structure TxReq where
  transactionid : Option String
deriving DecidableEq, Repr

/-- SqlClient::req_with_tx: insert the stored transaction id, when present,
as transactionid metadata. -/
def req_with_tx (st : SqlClientState) : TxReq :=
  TxReq.mk st.tx_id

/-- SqlClient::commit. The rpc argument is the outcome the commit RPC would
have; the result records the returned value, the state after the call, and
the request metadata sent, none when no RPC was issued. A question-mark on
the RPC propagates its error before the stored id is cleared. -/
def commit (st : SqlClientState) (rpc : Except Error Unit) :
    Except Error Unit × SqlClientState × Option TxReq :=
  match st.tx_id with
  | none => (.ok (), st, none)
  | some _ =>
    let req := req_with_tx st
    match rpc with
    | .error e => (.error e, st, some req)
    | .ok _ => (.ok (), SqlClientState.mk none, some req)

/-- SqlClient::rollback: no-op without a stored id; otherwise the rollback
RPC is issued with the id and its outcome discarded (let underscore binding
in the source), the id is cleared and Ok is returned. -/
def rollback (st : SqlClientState) (rpc : Except Error Unit) :
    Except Error Unit × SqlClientState × Option TxReq :=
  match st.tx_id with
  | none => (.ok (), st, none)
  | some _ =>
    let req := req_with_tx st
    (.ok (), SqlClientState.mk none, some req)

/-- Validity of a string as a tonic MetadataValue of the Ascii kind,
following the diagnostic of the source: the value must be ASCII. -/
def isAsciiMetadataValue (s : String) : Bool :=
  s.toList.all (fun c => c.toNat < 128)

/-- SqlClient::begin. The rpc argument is the outcome of the new-transaction
RPC, carrying the transaction id the server returns; on success the id is
validated as metadata and stored, overwriting any previous one; a rejected
id produces the Unexpected error of the source and leaves the state as it
was. -/
def beginTx (st : SqlClientState) (rpc : Except Error String) :
    Except Error Unit × SqlClientState :=
  match rpc with
  | .error e => (.error e, st)
  | .ok transaction_id =>
    if isAsciiMetadataValue transaction_id then
      (.ok (), SqlClientState.mk (some transaction_id))
    else
      (.error (.Unexpected "invalid tx id (non-ASCII)"), st)

/-- State held by the session interceptor (interceptor.rs): the fixed
session id and server uuid, and the optional bearer token. -/
structure SessionState where
  session_id : String
  server_uuid : String
  db_token : Option String
deriving DecidableEq, Repr

/-- Request metadata, a keyed list of ASCII entries. -/
def Metadata := List (String × String)

/-- MetadataMap::insert: replace any entry of the key with the new value. -/
def mdInsert (md : Metadata) (k v : String) : Metadata :=
  (md.filter (fun p => p.1 ≠ k)) ++ [(k, v)]

/-- First value stored under a key. -/
def mdGet : Metadata → String → Option String
  | [], _ => none
  | (k, v) :: rest, key => if k = key then some v else mdGet rest key

/-- Metadata rewrite done by SessionInterceptor::call: insert the session id
and the server uuid, then the bearer token when one is set. -/
def interceptorMd (st : SessionState) (md : Metadata) : Metadata :=
  let md1 := mdInsert md "sessionid" st.session_id
  let md2 := mdInsert md1 "immudb-uuid" st.server_uuid
  match st.db_token with
  | some tok => mdInsert md2 "authorization" tok
  | none => md2

/-- SessionInterceptor::call: the rewrite applied to the request metadata,
always returned successfully (Ok(req) in the source). -/
def interceptorCall (st : SessionState) (md : Metadata) :
    Except Error Metadata :=
  .ok (interceptorMd st md)

/-- JSON values (serde_json::Value); numbers are modelled by integers, the
only case the embedded conversions inspect (as_u64) or that the claims
feed. -/
inductive Json where
  | null
  | bool (b : Bool)
  | num (n : Int)
  | str (s : String)
  | arr (xs : List Json)
  | obj (kvs : List (String × Json))

/-- Map::get of a serde_json object (keys are unique in serde maps). -/
def jGet : List (String × Json) → String → Option Json
  | [], _ => none
  | (k, v) :: rest, key => if k = key then some v else jGet rest key

/-- Value::as_str. -/
def jAsStr : Json → Option String
  | .str s => some s
  | _ => none

/-- Value::as_u64: an integer number inside the u64 range. -/
def jAsU64 : Json → Option Nat
  | .num n => if 0 ≤ n ∧ n < 2 ^ 64 then some n.toNat else none
  | _ => none

/-- Value::as_bool. -/
def jAsBool : Json → Option Bool
  | .bool b => some b
  | _ => none

/-- Value::as_array. -/
def jAsArr : Json → Option (List Json)
  | .arr xs => some xs
  | _ => none

/-- Value::as_object. -/
def jAsObj : Json → Option (List (String × Json))
  | .obj kvs => some kvs
  | _ => none

/-- Protobuf well-known Value (prost_types::Value); the number payload keeps
the integral value carried over from the Json model. -/
inductive PValue where
  | nullv (n : Int)
  | boolv (b : Bool)
  | numv (n : Int)
  | strv (s : String)
  | listv (xs : List PValue)
  | structv (kvs : List (String × PValue))

mutual

/-- Function serde_json_to_prost in conv.rs (the as_f64 reading of a number
is value-preserving on the integral numbers modelled here). -/
def serde_json_to_prost : Json → PValue
  | .null => .nullv 0
  | .bool b => .boolv b
  | .num n => .numv n
  | .str s => .strv s
  | .arr xs => .listv (jsonListToProst xs)
  | .obj kvs => .structv (jsonObjToProst kvs)

/-- Elementwise conversion of a JSON array. -/
def jsonListToProst : List Json → List PValue
  | [] => []
  | x :: xs => serde_json_to_prost x :: jsonListToProst xs

/-- Fieldwise conversion of a JSON object (function to_struct in conv.rs). -/
def jsonObjToProst : List (String × Json) → List (String × PValue)
  | [] => []
  | (k, v) :: rest => (k, serde_json_to_prost v) :: jsonObjToProst rest

end

/-- Order clause of the generated query (model::OrderByClause). -/
structure OrderByClause where
  field : String
  desc : Bool
deriving DecidableEq, Repr

/-- Field comparison of the generated query (model::FieldComparison); the
operator is the protobuf enum numeral. -/
structure FieldComparison where
  field : String
  operator : Int
  value : Option PValue

/-- Query expression wrapping one comparison (model::QueryExpression). -/
structure QueryExpression where
  field_comparisons : List FieldComparison

/-- Generated query (model::Query); limit is a u32. -/
structure Query where
  collection_name : String
  expressions : List QueryExpression
  order_by : List OrderByClause
  limit : Nat

/-- Uppercasing of a character restricted to ASCII; the Unicode mapping of
str::to_uppercase agrees with it on every string whose uppercase form could
equal one of the six operator names. -/
def asciiUpperChar (c : Char) : Char :=
  if 97 ≤ c.toNat ∧ c.toNat ≤ 122 then Char.ofNat (c.toNat - 32) else c

/-- Uppercased copy of a string, ASCII mapping. -/
def asciiUpper (s : String) : String :=
  String.mk (s.toList.map asciiUpperChar)

/-- ASCII apostrophe, used to rebuild source error messages verbatim. -/
def quoteCh : String := String.mk [Char.ofNat 39]

/-- Function map_operator in conv.rs: case-insensitive comparison names to
protobuf numerals, anything else an InvalidInput error. -/
def map_operator (op : String) : Except Error Int :=
  match asciiUpper op with
  | "EQ" => .ok 0
  | "NE" => .ok 1
  | "GT" => .ok 2
  | "GE" => .ok 3
  | "LT" => .ok 4
  | "LE" => .ok 5
  | _ => .error (.InvalidInput ("Unknown comparison operator: " ++ op))

/-- Function json_to_field_comparison in conv.rs; the question-mark early
returns of the source are the error arms of the matches. -/
def json_to_field_comparison (m : List (String × Json)) :
    Except Error FieldComparison :=
  match (jGet m "field").bind jAsStr with
  | none =>
    .error (.InvalidInput ("Missing " ++ quoteCh ++ "field" ++ quoteCh))
  | some field =>
    match (jGet m "op").bind jAsStr with
    | none =>
      .error (.InvalidInput ("Missing " ++ quoteCh ++ "op" ++ quoteCh))
    | some op =>
      match jGet m "value" with
      | none =>
        .error (.InvalidInput ("Missing " ++ quoteCh ++ "value" ++ quoteCh))
      | some value =>
        match map_operator op with
        | .error e => .error e
        | .ok operator =>
          .ok (FieldComparison.mk field operator
            (some (serde_json_to_prost value)))

/-- Loop over the where AND array in json_to_immudb_query: object items are
converted, each becoming a one-comparison expression, in order; items that
are not objects are skipped; the first conversion error aborts the whole
query. -/
def buildExpressions : List Json → Except Error (List QueryExpression)
  | [] => .ok []
  | item :: rest =>
    match jAsObj item with
    | some m =>
      match json_to_field_comparison m with
      | .error e => .error e
      | .ok c =>
        match buildExpressions rest with
        | .error e => .error e
        | .ok tl => .ok (QueryExpression.mk [c] :: tl)
    | none => buildExpressions rest

/-- One order_by item: objects with a string field are kept, desc defaults
to false; anything else is dropped by the filter_map of the source. -/
def orderByItem (item : Json) : Option OrderByClause :=
  match jAsObj item with
  | some m =>
    match (jGet m "field").bind jAsStr with
    | some f =>
      some (OrderByClause.mk f (((jGet m "desc").bind jAsBool).getD false))
    | none => none
  | none => none

/-- Function json_to_immudb_query in conv.rs; non-object inputs and a
missing or non-string collection name are rejected, limit defaults to 100
and is cast to u32, order_by items are kept by filter_map, and the where AND
array is converted with error propagation. -/
def json_to_immudb_query (j : Json) : Except Error Query :=
  match j with
  | .obj map =>
    match (jGet map "collection_name").bind jAsStr with
    | none =>
      .error (.InvalidInput
        ("Missing " ++ quoteCh ++ "collection_name" ++ quoteCh))
    | some collection_name =>
      let limit := (((jGet map "limit").bind jAsU64).getD 100) % 2 ^ 32
      let order_by :=
        match (jGet map "order_by").bind jAsArr with
        | some arrItems => arrItems.filterMap orderByItem
        | none => []
      let exprsResult :=
        match (jGet map "where").bind jAsObj with
        | some w =>
          match (jGet w "AND").bind jAsArr with
          | some andArr => buildExpressions andArr
          | none => .ok []
        | none => .ok []
      match exprsResult with
      | .error e => .error e
      | .ok expressions =>
        .ok (Query.mk collection_name expressions order_by limit)
  | _ => .error (.InvalidInput "Query must be a JSON object")

/-- One-value row used by the streamed-query test vector of the spec. -/
def intRow (k : Int) : Row := Row.mk [] [SqlValue.mk (some (.n k))]

/-- Test-vector stream: three chunks, only the first carrying the single
column id of type INT, each carrying two one-value rows. -/
def exampleChunks : List Chunk :=
  [Chunk.mk [Column.mk "id" "INT"] [intRow 1, intRow 2],
   Chunk.mk [] [intRow 3, intRow 4],
   Chunk.mk [] [intRow 5, intRow 6]]

/-- Unsigned widening through From<u8>: cast `n as i64`, value preserving on
the u8 domain. -/
def sqlArgOfU8 (n : Nat) : SqlArg := .i64 n

/-- Unsigned widening through From<u16>. -/
def sqlArgOfU16 (n : Nat) : SqlArg := .i64 n

/-- Unsigned widening through From<u32>. -/
def sqlArgOfU32 (n : Nat) : SqlArg := .i64 n

/-- From<u64> for SqlArg: the cast `n as i64` reinterprets the 64-bit value
in two-complement, wrapping values at and above 2 to the 63. -/
def sqlArgOfU64 (n : Nat) : SqlArg := .i64 (u64_as_i64 n)

theorem mdGet_insert_self (md : Metadata) (k v : String) :
    mdGet (mdInsert md k v) k = some v := by
  induction md with
  | nil => simp [mdInsert, mdGet]
  | cons p rest ih =>
    by_cases h : p.1 = k
    · simpa [mdInsert, List.filter, h] using ih
    · simpa [mdInsert, List.filter, mdGet, h] using ih

theorem mdGet_insert_ne (md : Metadata) (k v k2 : String) (h : k ≠ k2) :
    mdGet (mdInsert md k v) k2 = mdGet md k2 := by
  induction md with
  | nil => simp [mdInsert, mdGet, h]
  | cons p rest ih =>
    by_cases hp : p.1 = k
    · have hp2 : p.1 ≠ k2 := by rw [hp]; exact h
      simpa [mdInsert, List.filter, mdGet, hp, hp2, h] using ih
    · by_cases hq : p.1 = k2
      · simp [mdInsert, List.filter, mdGet, hp, hq, h, Ne.symm h]
      · simpa [mdInsert, List.filter, mdGet, hp, hq, h, Ne.symm h] using ih

theorem queryLoop_map_ok (chunks : List Chunk) (cols : List Column)
    (rows : List Row) :
    queryLoop (chunks.map Except.ok) cols rows =
      .ok (QueryResult.mk
        (if cols.isEmpty then firstNonemptyCols chunks else cols)
        (rows ++ (chunks.map Chunk.rows).flatten)) := by
  induction chunks generalizing cols rows with
  | nil => cases cols <;> simp [queryLoop, firstNonemptyCols]
  | cons c rest ih =>
    simp only [List.map_cons, queryLoop, List.flatten]
    rw [ih]
    cases hc : cols.isEmpty
    · simp [hc, List.append_assoc]
    · cases hcc : c.columns.isEmpty
      · have hfc : firstNonemptyCols (c :: rest) = c.columns := by
          simp [firstNonemptyCols, hcc]
        simp [hc, hcc, hfc, List.append_assoc]
      · have hfc : firstNonemptyCols (c :: rest) = firstNonemptyCols rest := by
          simp [firstNonemptyCols, hcc]
        simp [hc, hcc, hfc, List.append_assoc]

theorem queryLoop_error_mid (pre : List Chunk) (e : Error)
    (rest : List (Except Error Chunk)) (cols : List Column) (rows : List Row) :
    queryLoop (pre.map Except.ok ++ .error e :: rest) cols rows = .error e := by
  induction pre generalizing cols rows with
  | nil => simp [queryLoop]
  | cons c tl ih => simp [queryLoop, ih]

theorem tdiv_1000_mul_bounds (ns : Int) :
    (0 ≤ ns → 0 ≤ Int.tdiv ns 1000 * 1000 ∧ Int.tdiv ns 1000 * 1000 ≤ ns) ∧
    (ns < 0 → ns ≤ Int.tdiv ns 1000 * 1000 ∧ Int.tdiv ns 1000 * 1000 ≤ 0) := by
  constructor
  · intro h
    have h1 := Int.tdiv_add_tmod ns 1000
    have h2 := Int.tmod_nonneg 1000 h
    have h3 := Int.tmod_lt_of_pos ns (b := 1000) (by decide)
    omega
  · intro h
    have h0 : (0 : Int) ≤ -ns := by omega
    have h1 := Int.tdiv_add_tmod (-ns) 1000
    have h2 := Int.tmod_nonneg 1000 h0
    have h3 := Int.tmod_lt_of_pos (-ns) (b := 1000) (by decide)
    have h4 : Int.tdiv ns 1000 = -(Int.tdiv (-ns) 1000) := by
      have h5 := Int.neg_tdiv (-ns) 1000
      rw [neg_neg] at h5
      exact h5
    rw [h4]
    omega

/-- C1 counterexample: with a stored transaction id and a failing commit
RPC, commit returns the RPC error yet leaves the stored id in place, so the
claimed unconditional clearing does not hold. -/
theorem commit_error_keeps_tx_counterexample :
    (commit (SqlClientState.mk (some "42")) (.error (.Protocol "boom"))).1 =
      .error (.Protocol "boom") ∧
    (commit (SqlClientState.mk (some "42")) (.error (.Protocol "boom"))).2.1 ≠
      SqlClientState.mk none := by
  exact ⟨rfl, by decide⟩

/-- C1 (amended): with an open transaction, commit issues the commit RPC
carrying the stored id as transactionid metadata; when the RPC succeeds the
stored id is cleared and Ok is returned; when the RPC fails the error is
propagated and the stored id is left unchanged, so the next call still
carries the old transaction id. -/
theorem commit_contract (txid : String) (rpc : Except Error Unit) :
    (commit (SqlClientState.mk (some txid)) rpc).2.2 =
      some (TxReq.mk (some txid)) ∧
    (∀ u, rpc = .ok u →
      commit (SqlClientState.mk (some txid)) rpc =
        (.ok (), SqlClientState.mk none, some (TxReq.mk (some txid)))) ∧
    (∀ e, rpc = .error e →
      commit (SqlClientState.mk (some txid)) rpc =
        (.error e, SqlClientState.mk (some txid),
          some (TxReq.mk (some txid)))) := by
  cases rpc <;> simp [commit, req_with_tx]

/-- C1 witness: the commit contract instantiated at a concrete id, for a
succeeding and for a failing RPC. -/
theorem commit_contract_witness :
    commit (SqlClientState.mk (some "7")) (.ok ()) =
      (.ok (), SqlClientState.mk none, some (TxReq.mk (some "7"))) ∧
    commit (SqlClientState.mk (some "7")) (.error (.Protocol "x")) =
      (.error (.Protocol "x"), SqlClientState.mk (some "7"),
        some (TxReq.mk (some "7"))) :=
  ⟨(commit_contract "7" (.ok ())).2.1 () rfl,
   (commit_contract "7" (.error (.Protocol "x"))).2.2 (.Protocol "x") rfl⟩

/-- C3 counterexample: the quoted qualified label does not normalize to the
bare name; quote stripping happens before the final dot-segment is taken, so
an inner quote survives. -/
theorem normalize_col_counterexample :
    normalize_col "  (\"groups\".\"name\")  " ≠ "name" := by decide

/-- C3 (amended): the quoted qualified label normalizes to the final segment
with its leading double quote retained; the unquoted examples behave as
claimed. -/
theorem normalize_col_examples :
    normalize_col "  (\"groups\".\"name\")  " = "\"name" ∧
    normalize_col "col" = "col" ∧
    normalize_col "(a.b)" = "b" :=
  ⟨by decide, by decide, by decide⟩

/-- C5: rollback with no open transaction returns Ok without issuing an RPC;
with an open transaction it issues the rollback RPC scoped by the stored id,
clears the id whatever the RPC outcome, and always returns Ok. -/
theorem rollback_contract (txid : String) (rpc rpc2 : Except Error Unit) :
    rollback (SqlClientState.mk none) rpc2 =
      (.ok (), SqlClientState.mk none, none) ∧
    rollback (SqlClientState.mk (some txid)) rpc =
      (.ok (), SqlClientState.mk none, some (TxReq.mk (some txid))) := by
  exact ⟨rfl, by simp [rollback, req_with_tx]⟩

/-- C6 counterexample: the u64 value 2 to the 63 is not encoded as the same
mathematical value; the cast wraps it to the negative i64 minimum. -/
theorem unsigned_widening_counterexample :
    arg_to_sql_value (sqlArgOfU64 (2 ^ 63)) =
      SqlValue.mk (some (.n (-(2 ^ 63)))) ∧
    arg_to_sql_value (sqlArgOfU64 (2 ^ 63)) ≠
      SqlValue.mk (some (.n (2 ^ 63))) := by
  exact ⟨by decide, by decide⟩

/-- C6 (amended): encoding of unsigned integers produces the signed Integer
wire variant; it is value preserving for every u8, u16 and u32 value and for
u64 values below 2 to the 63, while larger u64 values are reinterpreted in
two-complement, encoding to the value minus 2 to the 64. -/
theorem unsigned_encode_contract (n : Nat) :
    (n < 2 ^ 8 →
      arg_to_sql_value (sqlArgOfU8 n) = SqlValue.mk (some (.n n))) ∧
    (n < 2 ^ 16 →
      arg_to_sql_value (sqlArgOfU16 n) = SqlValue.mk (some (.n n))) ∧
    (n < 2 ^ 32 →
      arg_to_sql_value (sqlArgOfU32 n) = SqlValue.mk (some (.n n))) ∧
    (n < 2 ^ 63 →
      arg_to_sql_value (sqlArgOfU64 n) = SqlValue.mk (some (.n n))) ∧
    (2 ^ 63 ≤ n → n < 2 ^ 64 →
      arg_to_sql_value (sqlArgOfU64 n) =
        SqlValue.mk (some (.n ((n : Int) - 2 ^ 64)))) := by
  refine ⟨fun _ => rfl, fun _ => rfl, fun _ => rfl, ?_, ?_⟩
  · intro h
    have hlt : n < 2 ^ 64 := by omega
    simp [sqlArgOfU64, u64_as_i64, arg_to_sql_value, Nat.mod_eq_of_lt hlt]
    omega
  · intro h1 h2
    have hmod := Nat.mod_eq_of_lt h2
    simp [sqlArgOfU64, u64_as_i64, arg_to_sql_value, hmod]
    omega

/-- C6 witness: the unsigned encoding contract instantiated at 5 for the
narrow widths and at 2 to the 63 for the wrapping u64 case. -/
theorem unsigned_encode_contract_witness :
    arg_to_sql_value (sqlArgOfU8 5) = SqlValue.mk (some (.n 5)) ∧
    arg_to_sql_value (sqlArgOfU32 5) = SqlValue.mk (some (.n 5)) ∧
    arg_to_sql_value (sqlArgOfU64 (2 ^ 63)) =
      SqlValue.mk (some (.n ((2 ^ 63 : Int) - 2 ^ 64))) :=
  ⟨(unsigned_encode_contract 5).1 (by decide),
   (unsigned_encode_contract 5).2.2.1 (by decide),
   (unsigned_encode_contract (2 ^ 63)).2.2.2.2 (by decide) (by decide)⟩

/-- C8: begin never inspects the current state; whenever the new-transaction
RPC succeeds and the returned id is accepted as ASCII metadata, begin stores
that id, overwriting and silently abandoning any previously stored one, and
returns Ok; a rejected id makes begin fail with the Unexpected error and
leaves the state unchanged. -/
theorem begin_overwrites (st : SqlClientState) (txid : String) :
    (isAsciiMetadataValue txid = true →
      beginTx st (.ok txid) = (.ok (), SqlClientState.mk (some txid))) ∧
    (isAsciiMetadataValue txid = false →
      beginTx st (.ok txid) =
        (.error (.Unexpected "invalid tx id (non-ASCII)"), st)) := by
  constructor <;> intro h <;> simp [beginTx, h]

/-- C8 witness: with an already open transaction, a fresh ASCII id replaces
the stored one, and a non-ASCII id fails leaving the old id stored. -/
theorem begin_overwrites_witness :
    beginTx (SqlClientState.mk (some "old")) (.ok "new") =
      (.ok (), SqlClientState.mk (some "new")) ∧
    beginTx (SqlClientState.mk (some "old"))
        (.ok (String.mk [Char.ofNat 233])) =
      (.error (.Unexpected "invalid tx id (non-ASCII)"),
        SqlClientState.mk (some "old")) :=
  ⟨(begin_overwrites (SqlClientState.mk (some "old")) "new").1 (by decide),
   (begin_overwrites (SqlClientState.mk (some "old"))
     (String.mk [Char.ofNat 233])).2 (by decide)⟩

/-- C9 counterexample: decoding a Boolean wire value as String does fail
with a Decode error, but the message names string or bytes(base64) as the
expected kind, not bool. -/
theorem string_decode_of_bool_counterexample :
    tryFromString (SqlValue.mk (some (.b true))) =
      .error (.Decode "expected string or bytes(base64), got Some(B(true))") ∧
    tryFromString (SqlValue.mk (some (.b true))) ≠
      .error (.Decode "expected bool, got Some(B(true))") := by
  refine ⟨rfl, fun h => ?_⟩
  rw [show tryFromString (SqlValue.mk (some (.b true))) =
    .error (.Decode "expected string or bytes(base64), got Some(B(true))")
    from rfl] at h
  injection h with h1
  injection h1 with h2
  exact absurd h2 (by decide)

/-- C9 (amended): decoding any Boolean wire value while requesting a String
fails with a Decode error naming string or bytes(base64) as the expected
kind and identifying the actual Boolean variant. -/
theorem string_decode_of_bool_mismatch (b : Bool) :
    tryFromString (SqlValue.mk (some (.b b))) =
      .error (.Decode (expectedGot "string or bytes(base64)" (some (.b b)))) := by
  rfl

/-- C2: aggregation of a streamed query response takes its columns from the
first chunk whose column list is nonempty, concatenates the rows of all
chunks in arrival order, and is all-or-nothing: a stream error anywhere is
returned as the result, with every already accumulated row discarded; the
three-chunk test vector yields exactly one column and six rows. -/
theorem query_stream_aggregation :
    (∀ chunks : List Chunk,
      queryAggregate (chunks.map Except.ok) =
        .ok (QueryResult.mk (firstNonemptyCols chunks)
          ((chunks.map Chunk.rows).flatten))) ∧
    (∀ (pre : List Chunk) (e : Error) (rest : List (Except Error Chunk)),
      queryAggregate (pre.map Except.ok ++ .error e :: rest) = .error e) ∧
    queryAggregate (exampleChunks.map Except.ok) =
      .ok (QueryResult.mk [Column.mk "id" "INT"]
        [intRow 1, intRow 2, intRow 3, intRow 4, intRow 5, intRow 6]) ∧
    (QueryResult.mk [Column.mk "id" "INT"]
      [intRow 1, intRow 2, intRow 3, intRow 4, intRow 5,
        intRow 6]).columns.length = 1 ∧
    (QueryResult.mk [Column.mk "id" "INT"]
      [intRow 1, intRow 2, intRow 3, intRow 4, intRow 5,
        intRow 6]).rows.length = 6 := by
  refine ⟨fun chunks => ?_, fun pre e rest => queryLoop_error_mid pre e rest [] [],
    rfl, rfl, rfl⟩
  rw [queryAggregate, queryLoop_map_ok]
  simp

/-- C4: for every supported scalar type the decoder inverts the encoder:
identity round trips for i64, bool, f64, String, byte vectors and Uuid
values of the invariant sixteen-byte length; timestamps round trip to the
original instant truncated to microsecond precision, the range hypotheses
describing the representable datetime range of the time crate. -/
theorem decode_encode_roundtrip :
    (∀ n : Int, tryFromI64 (arg_to_sql_value (sqlArgOfI64 n)) = .ok n) ∧
    (∀ b : Bool, tryFromBool (arg_to_sql_value (sqlArgOfBool b)) = .ok b) ∧
    (∀ v : F64, tryFromF64 (arg_to_sql_value (sqlArgOfF64 v)) = .ok v) ∧
    (∀ s : String,
      tryFromString (arg_to_sql_value (sqlArgOfString s)) = .ok s) ∧
    (∀ bytes : List Nat,
      tryFromBytes (arg_to_sql_value (sqlArgOfBytes bytes)) = .ok bytes) ∧
    (∀ u : Uuid, u.bytes.length = 16 →
      tryFromUuid (arg_to_sql_value (sqlArgOfUuid u)) = .ok u) ∧
    (∀ lo hi ns : Int, lo ≤ ns → ns ≤ hi → lo ≤ 0 → 0 ≤ hi →
      -(2 ^ 63) * 1000 < lo → hi < 2 ^ 63 * 1000 →
      tryFromDateTime lo hi (arg_to_sql_value (sqlArgOfDateTime ns)) =
        .ok (truncToMicros ns)) := by
  refine ⟨fun n => rfl, fun b => rfl, fun v => rfl, fun s => rfl,
    fun bytes => rfl, fun u hu => ?_, fun lo hi ns h1 h2 h5 h6 h3 h4 => ?_⟩
  · cases u with
    | mk b => simp [sqlArgOfUuid, arg_to_sql_value, tryFromUuid,
        uuidFromSlice, hu]
  · have hb := tdiv_1000_mul_bounds ns
    have hm : lo ≤ Int.tdiv ns 1000 * 1000 ∧ Int.tdiv ns 1000 * 1000 ≤ hi ∧
        -(2 ^ 63) ≤ Int.tdiv ns 1000 ∧ Int.tdiv ns 1000 < 2 ^ 63 := by
      rcases le_or_lt 0 ns with hpos | hneg
      · have := hb.1 hpos
        omega
      · have := hb.2 hneg
        omega
    simp only [sqlArgOfDateTime, arg_to_sql_value, tryFromDateTime,
      i128_as_i64, truncToMicros]
    rw [Int.emod_eq_of_lt (by omega) (by omega)]
    have harith : Int.tdiv ns 1000 + 2 ^ 63 - 2 ^ 63 = Int.tdiv ns 1000 := by
      omega
    rw [harith]
    unfold fromUnixTimestampNanos
    rw [if_pos ⟨hm.1, hm.2.1⟩]

/-- C4 witness: the round trip instantiated for a concrete i64, a concrete
sixteen-byte Uuid and a concrete timestamp inside a concrete range, whose
decoded instant is the microsecond truncation. -/
theorem decode_encode_roundtrip_witness :
    tryFromI64 (arg_to_sql_value (sqlArgOfI64 5)) = .ok 5 ∧
    tryFromUuid (arg_to_sql_value (sqlArgOfUuid
        (Uuid.mk [0, 1, 2, 3, 4, 5, 6, 7, 8, 9, 10, 11, 12, 13, 14, 15]))) =
      .ok (Uuid.mk [0, 1, 2, 3, 4, 5, 6, 7, 8, 9, 10, 11, 12, 13, 14, 15]) ∧
    tryFromDateTime (-(10 ^ 15)) (10 ^ 15)
        (arg_to_sql_value (sqlArgOfDateTime 123456789)) =
      .ok (truncToMicros 123456789) :=
  ⟨decode_encode_roundtrip.1 5,
   decode_encode_roundtrip.2.2.2.2.2.1
     (Uuid.mk [0, 1, 2, 3, 4, 5, 6, 7, 8, 9, 10, 11, 12, 13, 14, 15])
     (by decide),
   decode_encode_roundtrip.2.2.2.2.2.2 (-(10 ^ 15)) (10 ^ 15) 123456789
     (by decide) (by decide) (by decide) (by decide) (by decide) (by decide)⟩

/-- C7: the session interceptor is a pure metadata rewrite that always
returns the request successfully: it inserts the fixed sessionid and
immudb-uuid entries, inserts an authorization entry exactly when a bearer
token is set, and otherwise leaves the authorization entry of the incoming
request untouched. -/
theorem interceptor_contract (st : SessionState) (md : Metadata) :
    interceptorCall st md = .ok (interceptorMd st md) ∧
    mdGet (interceptorMd st md) "sessionid" = some st.session_id ∧
    mdGet (interceptorMd st md) "immudb-uuid" = some st.server_uuid ∧
    (∀ tok, st.db_token = some tok →
      mdGet (interceptorMd st md) "authorization" = some tok) ∧
    (st.db_token = none →
      mdGet (interceptorMd st md) "authorization" = mdGet md "authorization") := by
  refine ⟨rfl, ?_, ?_, ?_, ?_⟩
  · cases htok : st.db_token with
    | none =>
      simp only [interceptorMd, htok]
      rw [mdGet_insert_ne _ _ _ _ (by decide), mdGet_insert_self]
    | some tok =>
      simp only [interceptorMd, htok]
      rw [mdGet_insert_ne _ _ _ _ (by decide),
        mdGet_insert_ne _ _ _ _ (by decide), mdGet_insert_self]
  · cases htok : st.db_token with
    | none =>
      simp only [interceptorMd, htok]
      rw [mdGet_insert_self]
    | some tok =>
      simp only [interceptorMd, htok]
      rw [mdGet_insert_ne _ _ _ _ (by decide), mdGet_insert_self]
  · intro tok htok
    simp only [interceptorMd, htok]
    rw [mdGet_insert_self]
  · intro htok
    simp only [interceptorMd, htok]
    rw [mdGet_insert_ne _ _ _ _ (by decide), mdGet_insert_ne _ _ _ _ (by decide)]

/-- C7 witness: the interceptor contract at a concrete state with a token
set, and at a concrete state without one where the incoming authorization
entry is preserved. -/
theorem interceptor_contract_witness :
    mdGet (interceptorMd (SessionState.mk "s" "u" (some "tok")) [])
      "authorization" = some "tok" ∧
    mdGet (interceptorMd (SessionState.mk "s" "u" none)
        [("authorization", "prev")]) "authorization" =
      mdGet [("authorization", "prev")] "authorization" :=
  ⟨(interceptor_contract (SessionState.mk "s" "u" (some "tok")) []).2.2.2.1
     "tok" rfl,
   (interceptor_contract (SessionState.mk "s" "u" none)
     [("authorization", "prev")]).2.2.2.2 rfl⟩

/-- C10: conversion of the query DSL rejects non-object inputs and a
missing or non-string collection name with InvalidInput errors, defaults
limit to 100 when absent, maps the six comparison operator names
case-insensitively to the numerals 0 through 5, rejects any other operator
name with an InvalidInput error, and propagates such a rejection from a
where AND element to the whole conversion. -/
theorem json_query_contract :
    (∀ j : Json, jAsObj j = none →
      json_to_immudb_query j =
        .error (.InvalidInput "Query must be a JSON object")) ∧
    (∀ kvs : List (String × Json),
      (jGet kvs "collection_name").bind jAsStr = none →
      json_to_immudb_query (.obj kvs) =
        .error (.InvalidInput
          ("Missing " ++ quoteCh ++ "collection_name" ++ quoteCh))) ∧
    (∀ (kvs : List (String × Json)) (q : Query), jGet kvs "limit" = none →
      json_to_immudb_query (.obj kvs) = .ok q → q.limit = 100) ∧
    (∀ s : String,
      (asciiUpper s = "EQ" → map_operator s = .ok 0) ∧
      (asciiUpper s = "NE" → map_operator s = .ok 1) ∧
      (asciiUpper s = "GT" → map_operator s = .ok 2) ∧
      (asciiUpper s = "GE" → map_operator s = .ok 3) ∧
      (asciiUpper s = "LT" → map_operator s = .ok 4) ∧
      (asciiUpper s = "LE" → map_operator s = .ok 5) ∧
      (asciiUpper s ∉ (["EQ", "NE", "GT", "GE", "LT", "LE"] : List String) →
        map_operator s =
          .error (.InvalidInput ("Unknown comparison operator: " ++ s)))) ∧
    json_to_immudb_query (.obj [("collection_name", .str "c"),
        ("where", .obj [("AND", .arr [.obj [("field", .str "f"),
          ("op", .str "XX"), ("value", .str "v")]])])]) =
      .error (.InvalidInput "Unknown comparison operator: XX") := by
  refine ⟨?_, ?_, ?_, ?_, rfl⟩
  · intro j h
    cases j <;> first | rfl | simp [jAsObj] at h
  · intro kvs h
    unfold json_to_immudb_query
    dsimp only
    rw [h]
  · intro kvs q h hq
    unfold json_to_immudb_query at hq
    dsimp only at hq
    rw [h] at hq
    split at hq
    · simp at hq
    · split at hq
      · simp at hq
      · injection hq with h2
        rw [← h2]
        simp
  · intro s
    refine ⟨fun h => by unfold map_operator; rw [h]; rfl,
      fun h => by unfold map_operator; rw [h]; rfl,
      fun h => by unfold map_operator; rw [h]; rfl,
      fun h => by unfold map_operator; rw [h]; rfl,
      fun h => by unfold map_operator; rw [h]; rfl,
      fun h => by unfold map_operator; rw [h]; rfl,
      fun h => ?_⟩
    unfold map_operator
    split <;> simp_all

/-- C10 witness: the conversion contract instantiated at concrete inputs
for each arm. -/
theorem json_query_contract_witness :
    json_to_immudb_query (.str "x") =
      .error (.InvalidInput "Query must be a JSON object") ∧
    json_to_immudb_query (.obj []) =
      .error (.InvalidInput
        ("Missing " ++ quoteCh ++ "collection_name" ++ quoteCh)) ∧
    (Query.mk "c" [] [] 100).limit = 100 ∧
    map_operator "eq" = .ok 0 ∧
    map_operator "zz" =
      .error (.InvalidInput ("Unknown comparison operator: zz")) :=
  ⟨json_query_contract.1 (.str "x") rfl,
   json_query_contract.2.1 [] rfl,
   json_query_contract.2.2.1 [("collection_name", .str "c")]
     (Query.mk "c" [] [] 100) rfl rfl,
   (json_query_contract.2.2.2.1 "eq").1 (by decide),
   (json_query_contract.2.2.2.1 "zz").2.2.2.2.2.2 (by decide)⟩
